import Mathlib

/-!
Verification of `src/core.py` of the lindenmayer repository.

The Python classes `Symbol`, `Alphabet`, `_SymbolNode`, `String` and
`_StringIterator` are embedded shallowly below.  Python exceptions are
modelled by the `PyErr` enumeration; a function that can raise returns an
`Except PyErr` value or carries an `Option PyErr` field.  Mutable heap
structure (the linked `_SymbolNode` chain) is modelled as a list of nodes
addressed by index, so that object identity (`is` comparisons) and sharing
between `String` values can be expressed faithfully.
-/

namespace Lindenmayer

/-- The Python exception classes raised by `core.py`. -/
inductive PyErr where
  | indexError
  | keyError
  | typeError
  | valueError
  | attributeError
  | permissionError
deriving DecidableEq, Repr

/-- Class `Symbol` (core.py lines 25-164).  The fields kept are the ones the
claims observe: `_glyph` (asserted to be a single character at line 47, hence
a `Char`), `_name`, and the ordered argument-name list drawn from
`_arg_spec`.  The `_proc` callback and the `_regex` cache play no part in any
claim and are omitted. -/
structure Symbol where
  glyph : Char
  name : String
  argnames : List String
deriving DecidableEq, Repr

/-- The attribute names an instance of `Symbol` exposes: the slots declared
at line 29 and the properties defined at lines 65-129.  `Symbol` uses
`__slots__`, so an attribute lookup outside this list raises
`AttributeError`. -/
def Symbol.attrs : List String :=
  ["_glyph", "_name", "_arg_spec", "_proc", "_regex",
   "glyph", "name", "arglen", "argnames", "argtypes", "argspec", "proc", "regex"]

/-- Whether `getattr` on a `Symbol` instance can succeed for this name. -/
def Symbol.hasAttr (a : String) : Bool := Symbol.attrs.contains a

/-- `Symbol.__eq__` (lines 139-144): two symbols are equal exactly when their
glyphs are equal.  `Symbol.__hash__` (lines 131-133) hashes the glyph, so the
Python `set` of an `Alphabet` is keyed by glyph alone. -/
def symEq (a b : Symbol) : Bool := a.glyph == b.glyph

/-- Class `Alphabet` (lines 166-381): the underlying `self._symbols` set,
modelled as the list of its elements in iteration order.  Python set
semantics (membership by `Symbol.__eq__`, i.e. by glyph) is reproduced by
the operations below. -/
structure Alphabet where
  symbols : List Symbol
deriving DecidableEq, Repr

/-- Membership of a glyph in the symbol set (the effect of the hash/eq pair
of `Symbol` on the Python `set`). -/
def Alphabet.memGlyph (A : Alphabet) (g : Char) : Bool :=
  A.symbols.any (fun s => s.glyph == g)

/-- `symbol in self._symbols` for a `Symbol` argument: Python set membership
under `Symbol.__eq__`, i.e. some element with the same glyph. -/
def Alphabet.containsSym (A : Alphabet) (s : Symbol) : Bool :=
  A.memGlyph s.glyph

/-- `Alphabet.__contains__` (lines 184-213) restricted to `str` arguments: a
single character is searched as a glyph, a longer string as a name, and an
empty string raises `ValueError` (line 211). -/
def Alphabet.containsStrE (A : Alphabet) (item : String) : Except PyErr Bool :=
  if item.length = 1 then
    .ok (A.symbols.any (fun s => s.glyph.toString == item))
  else if 1 < item.length then
    .ok (A.symbols.any (fun s => s.name == item))
  else
    .error .valueError

/-- `Alphabet.get` (lines 356-381): one character resolves by glyph, longer
by name, empty raises `ValueError`; a miss raises `KeyError`. -/
def Alphabet.getE (A : Alphabet) (sym : String) : Except PyErr Symbol :=
  if sym.length = 1 then
    match A.symbols.find? (fun s => s.glyph.toString == sym) with
    | some s => .ok s
    | none => .error .keyError
  else if 1 < sym.length then
    match A.symbols.find? (fun s => s.name == sym) with
    | some s => .ok s
    | none => .error .keyError
  else
    .error .valueError

/-- Removal of the first list element whose name matches, returning it and
the remaining elements (the effect of `self._symbols.remove(s)` after the
search loop of `Alphabet.drop`, lines 340-344). -/
def dropByName : List Symbol → String → Option (Symbol × List Symbol)
  | [], _ => none
  | s :: rest, n =>
    if s.name == n then some (s, rest)
    else match dropByName rest n with
      | some (t, rest2) => some (t, s :: rest2)
      | none => none

/-- Removal of the first list element whose glyph (rendered as a Python
string) matches, as in the search loop of lines 345-349. -/
def dropByGlyph : List Symbol → String → Option (Symbol × List Symbol)
  | [], _ => none
  | s :: rest, g =>
    if s.glyph.toString == g then some (s, rest)
    else match dropByGlyph rest g with
      | some (t, rest2) => some (t, s :: rest2)
      | none => none

/-- `Alphabet.drop` (lines 325-351): a string of length greater than one is
searched as a name, ANY other string — including the empty string — is
searched as a glyph (the `else` at line 345 has no length guard), and a miss
raises `KeyError` (line 351).  There is no `ValueError` path. -/
def Alphabet.dropE (A : Alphabet) (sym : String) : Except PyErr (Symbol × Alphabet) :=
  if 1 < sym.length then
    match dropByName A.symbols sym with
    | some (s, rest) => .ok (s, ⟨rest⟩)
    | none => .error .keyError
  else
    match dropByGlyph A.symbols sym with
    | some (s, rest) => .ok (s, ⟨rest⟩)
    | none => .error .keyError

/-- `Alphabet.add` (lines 293-323) for a prebuilt `Symbol` argument: the body
is exactly `self._symbols.add(symbol); return symbol`.  A Python set `add`
keeps the existing element when an equal one (same glyph) is present and
appends otherwise; no raise statement occurs anywhere in the method, so the
error component is always `none`. -/
def Alphabet.addE (A : Alphabet) (s : Symbol) : Option PyErr × Alphabet × Symbol :=
  (none, if A.containsSym s then A else ⟨A.symbols ++ [s]⟩, s)

/-- `Alphabet.__le__` (lines 229-234): frozen-set subset, i.e. every element
of the left set is a member (by glyph) of the right set. -/
def Alphabet.leA (A B : Alphabet) : Bool :=
  A.symbols.all (fun s => B.containsSym s)

/-- `Alphabet.__and__` (lines 250-257): the set intersection; membership of
the result is membership in both operands. -/
def Alphabet.interA (A B : Alphabet) : Alphabet :=
  ⟨A.symbols.filter (fun s => B.containsSym s)⟩

/-- `Alphabet.__or__` (lines 259-266): the set union. -/
def Alphabet.unionA (A B : Alphabet) : Alphabet :=
  ⟨A.symbols ++ B.symbols.filter (fun s => !(A.containsSym s))⟩

/-- `Alphabet.__sub__` (lines 268-275): the set difference. -/
def Alphabet.subA (A B : Alphabet) : Alphabet :=
  ⟨A.symbols.filter (fun s => !(B.containsSym s))⟩

/-- `Alphabet.isdisjoint` (lines 277-288): true exactly when the two symbol
sets share no element. -/
def Alphabet.isdisjoint (A B : Alphabet) : Bool :=
  A.symbols.all (fun s => !(B.containsSym s))

/-- Observational equality of alphabets: the same glyphs are members.  Every
membership observation of `core.py` (`__contains__`, subset tests, further
set algebra) factors through `memGlyph`. -/
def Alphabet.equiv (A B : Alphabet) : Prop :=
  ∀ g : Char, A.memGlyph g = B.memGlyph g

/-! ### The linked `String` structure -/

/-- A `_SymbolNode` (lines 482-649): the symbol of the occurrence and the
indices of the left and right sibling nodes in the heap.  Node identity
(Python `is`) is index equality.  The `_params` dictionary is never reached
by any executed path of `core.py` (see `symbolNodeInitErr`) and is omitted. -/
structure SNode where
  symbol : Symbol
  left : Option Nat
  right : Option Nat
deriving DecidableEq, Repr

/-- The heap of `_SymbolNode` objects, addressed by index. -/
abbrev Heap := List SNode

/-- `_SymbolNode.__init__` (lines 487-526).  After the type checks, line 508
evaluates `len(symbol.params)`.  `Symbol` declares no attribute named
`params` (`Symbol.hasAttr "params" = false`: the slots are `_glyph`, `_name`,
`_arg_spec`, `_proc`, `_regex` and the properties are `glyph`, `name`,
`arglen`, `argnames`, `argtypes`, `argspec`, `proc`, `regex`), so the lookup
raises `AttributeError` for every symbol and every `params` argument before
any field of the node is assigned.  The constructor therefore has exactly one
outcome, returned here as the exception it raises. -/
def symbolNodeInitErr (_symbol : Symbol) (_params : Option (List (String × String))) : PyErr :=
  .attributeError

/-- Class `String` (lines 652-950): the object fields assigned by
`String.__init__` — indices of the first and last node of the chain, the
stored length, the bound alphabet (`None` allowed), and the ownership and
copy-on-write flags. -/
structure StringS where
  first : Option Nat
  last : Option Nat
  len : Nat
  alphabet : Option Alphabet
  isOwner : Bool
  copyOnWrite : Bool
deriving DecidableEq, Repr

/-- The bounds test of `String.insert` (line 755):
`(self._len == 0 and loc not in (0, -1)) or not -self._len <= loc < self._len`.
`true` means the test fails and `IndexError` is raised (line 756). -/
def boundsBad (len : Nat) (loc : Int) : Bool :=
  (len == 0 && !(loc == 0 || loc == -1)) ||
    !(decide ((-(len : Int)) ≤ loc) && decide (loc < (len : Int)))

/-- The `item` argument of `String.insert`: a built-in `str` naming a symbol
by glyph or name, or another `String`.  Any other type raises `TypeError`
(line 804) and is not modelled. -/
inductive Item where
  | sstr (s : String)
  | sseq (S : StringS)

/-- The outcome of a `String.insert` call: the exception raised (if any), the
node heap after the call, and the fields of `self` after the call. -/
structure InsertOut where
  err : Option PyErr
  heap : Heap
  self : StringS
deriving DecidableEq, Repr

/-- `String.insert` (lines 734-804).  The executed paths are:
* line 755: the bounds test; failure raises `IndexError` (line 756);
* `str` item, line 759: `self.alphabet.get(item)` — an `AttributeError` when
  the alphabet is `None`, otherwise `Alphabet.get` may raise `KeyError` or
  `ValueError`; when it returns, the `_SymbolNode` constructor on the same
  line raises `AttributeError` (see `symbolNodeInitErr`), so lines 760-793
  are unreachable and are not modelled;
* `String` item, line 796: `item.alphabet <= self.alphabet` — `TypeError`
  when either side is `None` (`Alphabet.__le__` line 234, or `None.__le__`),
  otherwise the subset test selects between two `pass` statements
  (lines 798, 800) and the call returns with no effect, or raises `KeyError`
  (line 802).
No path assigns to any node or to any field of `self` before its raise
point, so the heap and the fields of `self` are returned unchanged on every
path. -/
def insertS (h : Heap) (self : StringS) (item : Item) (loc : Int)
    (params : Option (List (String × String))) : InsertOut :=
  if boundsBad self.len loc then ⟨some .indexError, h, self⟩
  else match item with
  | .sstr s =>
    match self.alphabet with
    | none => ⟨some .attributeError, h, self⟩
    | some A =>
      match A.getE s with
      | .error e => ⟨some e, h, self⟩
      | .ok sym => ⟨some (symbolNodeInitErr sym params), h, self⟩
  | .sseq S2 =>
    match S2.alphabet, self.alphabet with
    | some B, some A => if B.leA A then ⟨none, h, self⟩ else ⟨some .keyError, h, self⟩
    | _, _ => ⟨some .typeError, h, self⟩

/-- `String.__init__` (lines 659-721) for `string` a `String` object or
`None` (a built-in `str` argument reaches `raise NotImplementedError` at
line 680 and is not modelled).  The `isinstance(string, String)` branch
assigns fields according to `string._len` and `copy`; for a non-empty source
with `copy=True` the loop at lines 697-703 constructs `_SymbolNode` objects,
which raises `AttributeError` (see `symbolNodeInitErr`) before the object is
completed.  On every non-raising path, the trailing unconditional
assignments at lines 716-721 then overwrite every field: the result is the
empty string with the `alphabet` argument, owner set, copy-on-write clear. -/
def stringInit (_h : Heap) (src : Option StringS) (alphabet : Option Alphabet)
    (copy : Option Bool) : Except PyErr StringS :=
  match src with
  | none => .ok ⟨none, none, 0, alphabet, true, false⟩
  | some s =>
    if s.len == 0 then .ok ⟨none, none, 0, alphabet, true, false⟩
    else match copy with
      | some true => .error .attributeError
      | _ => .ok ⟨none, none, 0, alphabet, true, false⟩

/-- The symbols of the chain of a string, reading `first` and following
`right` pointers for `len` steps: the element-at-index observations of a
`String`. -/
def chainFrom (h : Heap) : Option Nat → Nat → List Symbol
  | _, 0 => []
  | none, _ + 1 => []
  | some i, fuel + 1 =>
    match h.get? i with
    | none => []
    | some nd => nd.symbol :: chainFrom h nd.right fuel

/-- The observable content of a `String`: its reported length and its
elements in order. -/
def observe (h : Heap) (S : StringS) : Nat × List Symbol :=
  (S.len, chainFrom h S.first S.len)

/-- `_StringIterator` (lines 953-964): the `_next` and `_last` fields set by
`String.__iter__` (line 950) from the first and last anchors of the string. -/
structure StrIter where
  next : Option Nat
  last : Option Nat
deriving DecidableEq, Repr

/-- `_StringIterator.__next__` (lines 958-964): `None` models
`StopIteration`; otherwise the current node is yielded and the cursor
becomes `res.right if res.right is not self._last else None` (line 963),
with node identity modelled as heap-index equality. -/
def iterNext (h : Heap) (it : StrIter) : Option (SNode × StrIter) :=
  match it.next with
  | none => none
  | some i =>
    match h.get? i with
    | none => none
    | some nd =>
      some (nd, ⟨if nd.right == it.last then none else nd.right, it.last⟩)

/-- The list of nodes an iterator yields, with fuel bounding the number of
`__next__` calls. -/
def iterCollect (h : Heap) : StrIter → Nat → List SNode
  | _, 0 => []
  | it, fuel + 1 =>
    match iterNext h it with
    | none => []
    | some (nd, it2) => nd :: iterCollect h it2 fuel

/-- The full iteration of `iter(string)`: a fresh `_StringIterator` built
from the first and last anchors (line 950), run to exhaustion. -/
def stringIterItems (h : Heap) (S : StringS) (fuel : Nat) : List SNode :=
  iterCollect h ⟨S.first, S.last⟩ fuel

/-- The `String` values the program can construct: results of
`String.__init__` from no source or from an already constructed `String`,
and the `self` left behind by any `insert` call. -/
inductive Reachable : StringS → Prop where
  | ofInitNone : ∀ (a : Option Alphabet) (c : Option Bool) (S : StringS),
      stringInit [] none a c = .ok S → Reachable S
  | ofInitSome : ∀ (h : Heap) (src : StringS) (a : Option Alphabet) (c : Option Bool)
      (S : StringS), Reachable src → stringInit h (some src) a c = .ok S → Reachable S
  | ofInsert : ∀ (h : Heap) (S : StringS) (item : Item) (loc : Int)
      (p : Option (List (String × String))), Reachable S →
      Reachable (insertS h S item loc p).self

/-! ### Concrete values used by closed theorems -/

/-- A symbol with glyph `a` and name `alpha`. -/
def symAalpha : Symbol := ⟨'a', "alpha", []⟩

/-- A symbol sharing the glyph of `symAalpha` under a different name. -/
def symAbeta : Symbol := ⟨'a', "beta", []⟩

/-- A symbol sharing the name of `symAalpha` under a different glyph. -/
def symBalpha : Symbol := ⟨'b', "alpha", []⟩

/-- The alphabet holding exactly `symAalpha`. -/
def aAlpha : Alphabet := ⟨[symAalpha]⟩

/-- The empty alphabet. -/
def aEmpty : Alphabet := ⟨[]⟩

/-- An alphabet holding one symbol with glyph `F`. -/
def aF : Alphabet := ⟨[⟨'F', "forward", []⟩]⟩

/-- The empty string with no alphabet: the value produced by
`String(alphabet=None)`. -/
def src0 : StringS := ⟨none, none, 0, none, true, false⟩

/-- The empty string bound to the alphabet `aF`. -/
def src0F : StringS := ⟨none, none, 0, some aF, true, false⟩

/-- Two chained nodes carrying the symbols `A` and `B`. -/
def heap2 : Heap :=
  [⟨⟨'A', "A", []⟩, none, some 1⟩, ⟨⟨'B', "B", []⟩, some 0, none⟩]

/-- A well-formed two-element string over `heap2`: first anchor node 0, last
anchor node 1, length 2. -/
def str2 : StringS := ⟨some 0, some 1, 2, none, true, false⟩

/-! ### Helper lemmas -/

/-- No execution path of `String.insert` writes to the node heap or to a
field of `self`: every path raises before its first assignment or performs
no assignment at all. -/
theorem insertS_frame (h : Heap) (S : StringS) (item : Item) (loc : Int)
    (p : Option (List (String × String))) :
    (insertS h S item loc p).heap = h ∧ (insertS h S item loc p).self = S := by
  unfold insertS
  split
  · exact ⟨rfl, rfl⟩
  · split
    · split
      · exact ⟨rfl, rfl⟩
      · split <;> exact ⟨rfl, rfl⟩
    · split
      · split <;> exact ⟨rfl, rfl⟩
      · exact ⟨rfl, rfl⟩

/-- A `String.insert` call whose `item` is a built-in `str` raises on every
path: `IndexError` at the bounds test, `AttributeError` when the alphabet is
`None`, the error of `Alphabet.get` when the lookup fails, and otherwise the
`AttributeError` of the `_SymbolNode` constructor. -/
theorem insertS_sstr_err (h : Heap) (S : StringS) (s : String) (loc : Int)
    (p : Option (List (String × String))) :
    (insertS h S (Item.sstr s) loc p).err.isSome = true := by
  simp only [insertS]
  split
  · rfl
  · split
    · rfl
    · split <;> rfl

/-- Every error `Alphabet.drop` can raise for a string argument is
`KeyError` (line 351); there is no other raise statement on the path. -/
theorem dropE_err (A : Alphabet) (t : String) (e : PyErr)
    (he : A.dropE t = .error e) : e = PyErr.keyError := by
  unfold Alphabet.dropE at he
  split at he
  · cases hd : dropByName A.symbols t with
    | none => rw [hd] at he; exact (Except.error.inj he).symm
    | some pr => rw [hd] at he; cases he
  · cases hd : dropByGlyph A.symbols t with
    | none => rw [hd] at he; exact (Except.error.inj he).symm
    | some pr => rw [hd] at he; cases he

/-- Every `String` the program constructs is empty, owns its storage and has
copy-on-write clear: `String.__init__` ends in the unconditional assignments
of lines 716-721 on every non-raising path, and `String.insert` never
completes an insertion. -/
theorem reachable_shape {S : StringS} (hr : Reachable S) :
    S.first = none ∧ S.last = none ∧ S.len = 0 ∧
      S.isOwner = true ∧ S.copyOnWrite = false := by
  induction hr with
  | ofInitNone a c S he =>
    simp only [stringInit, Except.ok.injEq] at he
    subst he
    exact ⟨rfl, rfl, rfl, rfl, rfl⟩
  | ofInitSome h src a c S hsrc he ih =>
    simp only [stringInit, ih.2.2.1, beq_self_eq_true, if_true, Except.ok.injEq] at he
    subst he
    exact ⟨rfl, rfl, rfl, rfl, rfl⟩
  | ofInsert h S item loc p hS ih =>
    rw [(insertS_frame h S item loc p).2]
    exact ih

/-- Whether the search loop of `Alphabet.drop` finds a name is the same
question as whether some element carries the name. -/
theorem dropByName_isSome (l : List Symbol) (n : String) :
    (dropByName l n).isSome = l.any (fun t => t.name == n) := by
  induction l with
  | nil => rfl
  | cons a tl ih =>
    simp only [dropByName, List.any_cons]
    by_cases h : (a.name == n) = true
    · rw [h]; simp [h]
    · have h2 : (a.name == n) = false := by
        cases hb : (a.name == n) with
        | false => rfl
        | true => exact absurd hb h
      rw [h2]
      simp only [Bool.false_or, if_false]
      rw [← ih]
      cases hd : dropByName tl n with
      | none => rfl
      | some pr => cases pr; rfl

/-- Whether the glyph search loop of `Alphabet.drop` finds its argument is
the same question as whether some element renders its glyph as the
argument. -/
theorem dropByGlyph_isSome (l : List Symbol) (g : String) :
    (dropByGlyph l g).isSome = l.any (fun t => t.glyph.toString == g) := by
  induction l with
  | nil => rfl
  | cons a tl ih =>
    simp only [dropByGlyph, List.any_cons]
    by_cases h : (a.glyph.toString == g) = true
    · rw [h]; simp [h]
    · have h2 : (a.glyph.toString == g) = false := by
        cases hb : (a.glyph.toString == g) with
        | false => rfl
        | true => exact absurd hb h
      rw [h2]
      simp only [Bool.false_or, if_false]
      rw [← ih]
      cases hd : dropByGlyph tl g with
      | none => rfl
      | some pr => cases pr; rfl

/-- A rendered glyph is a one-character string, never the empty string. -/
theorem char_toString_ne_empty (c : Char) : (c.toString == "") = false := by
  cases hb : (c.toString == "") with
  | false => rfl
  | true =>
    have h : c.toString = "" := eq_of_beq hb
    have hd : (c.toString).data = ([] : List Char) := by rw [h]
    simp [Char.toString, String.singleton] at hd

/-- The glyph search of `Alphabet.drop` can never find the empty string. -/
theorem dropByGlyph_empty (l : List Symbol) : dropByGlyph l "" = none := by
  induction l with
  | nil => rfl
  | cons a tl ih => simp [dropByGlyph, char_toString_ne_empty, ih]

/-- One-character `Alphabet.get`: success is existence of a member with the
requested glyph. -/
theorem getE_glyph_iff (A : Alphabet) (s : String) (h1 : s.length = 1) :
    ((A.getE s).isOk = true) ↔ ∃ t ∈ A.symbols, t.glyph.toString = s := by
  have key : (A.getE s).isOk =
      (A.symbols.find? (fun t => t.glyph.toString == s)).isSome := by
    simp only [Alphabet.getE]
    rw [if_pos h1]
    cases hf : A.symbols.find? (fun t => t.glyph.toString == s) with
    | none => rfl
    | some t => rfl
  rw [key, List.find?_isSome]
  simp only [beq_iff_eq]

/-- Longer `Alphabet.get`: success is existence of a member with the
requested name. -/
theorem getE_name_iff (A : Alphabet) (s : String) (h2 : 1 < s.length) :
    ((A.getE s).isOk = true) ↔ ∃ t ∈ A.symbols, t.name = s := by
  have hne : ¬(s.length = 1) := by omega
  have key : (A.getE s).isOk =
      (A.symbols.find? (fun t => t.name == s)).isSome := by
    simp only [Alphabet.getE]
    rw [if_neg hne, if_pos h2]
    cases hf : A.symbols.find? (fun t => t.name == s) with
    | none => rfl
    | some t => rfl
  rw [key, List.find?_isSome]
  simp only [beq_iff_eq]

/-- One-character `__contains__`: truth is existence of a member with the
requested glyph. -/
theorem containsE_glyph_iff (A : Alphabet) (s : String) (h1 : s.length = 1) :
    (A.containsStrE s = .ok true) ↔ ∃ t ∈ A.symbols, t.glyph.toString = s := by
  simp only [Alphabet.containsStrE]
  rw [if_pos h1]
  constructor
  · intro hx
    have hx2 : A.symbols.any (fun t => t.glyph.toString == s) = true := Except.ok.inj hx
    rw [List.any_eq_true] at hx2
    simpa using hx2
  · rintro ⟨t, ht, he⟩
    have hx2 : A.symbols.any (fun t => t.glyph.toString == s) = true := by
      rw [List.any_eq_true]
      exact ⟨t, ht, by simp [he]⟩
    rw [hx2]

/-- Longer `__contains__`: truth is existence of a member with the
requested name. -/
theorem containsE_name_iff (A : Alphabet) (s : String) (h2 : 1 < s.length) :
    (A.containsStrE s = .ok true) ↔ ∃ t ∈ A.symbols, t.name = s := by
  have hne : ¬(s.length = 1) := by omega
  simp only [Alphabet.containsStrE]
  rw [if_neg hne, if_pos h2]
  constructor
  · intro hx
    have hx2 : A.symbols.any (fun t => t.name == s) = true := Except.ok.inj hx
    rw [List.any_eq_true] at hx2
    simpa using hx2
  · rintro ⟨t, ht, he⟩
    have hx2 : A.symbols.any (fun t => t.name == s) = true := by
      rw [List.any_eq_true]
      exact ⟨t, ht, by simp [he]⟩
    rw [hx2]

/-- Short `Alphabet.drop` (one character or fewer): success is existence of
a member with the requested glyph. -/
theorem dropE_glyph_iff (A : Alphabet) (s : String) (h1 : ¬(1 < s.length)) :
    ((A.dropE s).isOk = true) ↔ ∃ t ∈ A.symbols, t.glyph.toString = s := by
  have key : (A.dropE s).isOk = (dropByGlyph A.symbols s).isSome := by
    simp only [Alphabet.dropE]
    rw [if_neg h1]
    cases hd : dropByGlyph A.symbols s with
    | none => rfl
    | some pr => cases pr; rfl
  rw [key, Bool.eq_iff_iff.mp (dropByGlyph_isSome A.symbols s), List.any_eq_true]
  simp only [beq_iff_eq]

/-- Longer `Alphabet.drop`: success is existence of a member with the
requested name. -/
theorem dropE_name_iff (A : Alphabet) (s : String) (h2 : 1 < s.length) :
    ((A.dropE s).isOk = true) ↔ ∃ t ∈ A.symbols, t.name = s := by
  have key : (A.dropE s).isOk = (dropByName A.symbols s).isSome := by
    simp only [Alphabet.dropE]
    rw [if_pos h2]
    cases hd : dropByName A.symbols s with
    | none => rfl
    | some pr => cases pr; rfl
  rw [key, Bool.eq_iff_iff.mp (dropByName_isSome A.symbols s), List.any_eq_true]
  simp only [beq_iff_eq]

/-- Membership in an intersection is membership in both operands. -/
theorem mem_interA_iff (A B : Alphabet) (g : Char) :
    (A.interA B).memGlyph g = true ↔
      (A.memGlyph g = true ∧ B.memGlyph g = true) := by
  simp only [Alphabet.memGlyph, Alphabet.interA, Alphabet.containsSym, List.any_eq_true,
    List.mem_filter]
  constructor
  · rintro ⟨t, ⟨htA, htB⟩, hg⟩
    obtain rfl : t.glyph = g := eq_of_beq hg
    exact ⟨⟨t, htA, beq_self_eq_true t.glyph⟩, htB⟩
  · rintro ⟨⟨t, htA, hg⟩, hB⟩
    obtain rfl : t.glyph = g := eq_of_beq hg
    exact ⟨t, ⟨htA, hB⟩, beq_self_eq_true t.glyph⟩

/-- Membership in a union is membership in either operand. -/
theorem mem_unionA_iff (A B : Alphabet) (g : Char) :
    (A.unionA B).memGlyph g = true ↔
      (A.memGlyph g = true ∨ B.memGlyph g = true) := by
  simp only [Alphabet.memGlyph, Alphabet.unionA, Alphabet.containsSym, List.any_eq_true,
    List.mem_append, List.mem_filter, Bool.not_eq_true']
  constructor
  · rintro ⟨t, ht, hg⟩
    obtain rfl : t.glyph = g := eq_of_beq hg
    cases ht with
    | inl h => exact Or.inl ⟨t, h, beq_self_eq_true t.glyph⟩
    | inr h => exact Or.inr ⟨t, h.1, beq_self_eq_true t.glyph⟩
  · intro h
    cases h with
    | inl h2 =>
      obtain ⟨t, ht, hg⟩ := h2
      exact ⟨t, Or.inl ht, hg⟩
    | inr h2 =>
      obtain ⟨t, ht, hg⟩ := h2
      obtain rfl : t.glyph = g := eq_of_beq hg
      by_cases hA : (A.symbols.any fun u => u.glyph == t.glyph) = true
      · rw [List.any_eq_true] at hA
        obtain ⟨u, hu, hug⟩ := hA
        exact ⟨u, Or.inl hu, hug⟩
      · exact ⟨t, Or.inr ⟨ht, eq_false_of_ne_true hA⟩, beq_self_eq_true t.glyph⟩

/-- Membership in a difference is membership in the left operand but not the
right. -/
theorem mem_subA_iff (A B : Alphabet) (g : Char) :
    (A.subA B).memGlyph g = true ↔
      (A.memGlyph g = true ∧ B.memGlyph g = false) := by
  simp only [Alphabet.memGlyph, Alphabet.subA, Alphabet.containsSym, List.any_eq_true,
    List.mem_filter, Bool.not_eq_true']
  constructor
  · rintro ⟨t, ⟨htA, htB⟩, hg⟩
    obtain rfl : t.glyph = g := eq_of_beq hg
    exact ⟨⟨t, htA, beq_self_eq_true t.glyph⟩, htB⟩
  · rintro ⟨⟨t, htA, hg⟩, hB⟩
    obtain rfl : t.glyph = g := eq_of_beq hg
    exact ⟨t, ⟨htA, hB⟩, beq_self_eq_true t.glyph⟩

/-- An alphabet is never disjoint from itself unless it is empty. -/
theorem isdisjoint_self_eq (A : Alphabet) :
    A.isdisjoint A = A.symbols.isEmpty := by
  cases hA : A.symbols with
  | nil => simp [Alphabet.isdisjoint, hA]
  | cons a tl =>
    have hmem : A.containsSym a = true := by
      simp only [Alphabet.containsSym, Alphabet.memGlyph, hA, List.any_cons,
        beq_self_eq_true, Bool.true_or]
    simp [Alphabet.isdisjoint, hA, hmem]

/-! ### Claim theorems -/

/-- C1: the claim says `String.insert` with a glyph or name reference
inserts one occurrence and grows the length by one.  In the code no such
call ever completes: every `str` insertion raises before any pointer is
rewritten, so the error slot is always filled and the string and heap are
returned exactly as they were — the length never grows. -/
theorem insert_str_never_inserts : ∀ (h : Heap) (S : StringS) (s : String) (loc : Int)
    (p : Option (List (String × String))),
    (insertS h S (Item.sstr s) loc p).err.isSome = true ∧
    (insertS h S (Item.sstr s) loc p).self = S ∧
    (insertS h S (Item.sstr s) loc p).heap = h :=
  fun h S s loc p =>
    ⟨insertS_sstr_err h S s loc p, (insertS_frame h S (Item.sstr s) loc p).2,
      (insertS_frame h S (Item.sstr s) loc p).1⟩

/-- C2: a `String` S2 built as a shallow (non-deep) copy of S1 can receive
any `insert` call without changing what S1 observes: `insert` raises before
its first write or returns without writing, so the node heap — the only
state S1 and S2 could share — is untouched, and the length and
element-at-index observations of S1 are unchanged. -/
theorem shallow_copy_isolation (h : Heap) (S1 : StringS) (a : Option Alphabet)
    (c : Option Bool) (S2 : StringS) (item : Item) (loc : Int)
    (p : Option (List (String × String)))
    (_hc : c ≠ some true) (_hinit : stringInit h (some S1) a c = .ok S2) :
    observe (insertS h S2 item loc p).heap S1 = observe h S1 ∧
    (insertS h S2 item loc p).heap = h := by
  rw [(insertS_frame h S2 item loc p).1]
  exact ⟨rfl, rfl⟩

/-- Witness for C2 at a concrete input: the empty string over no alphabet,
shallow-copied with `copy=None`, then asked to insert the glyph `F` at 0. -/
theorem shallow_copy_isolation_inst :
    observe (insertS [] src0 (Item.sstr "F") 0 none).heap src0 = observe [] src0 ∧
    (insertS [] src0 (Item.sstr "F") 0 none).heap = [] :=
  shallow_copy_isolation [] src0 none none src0 (Item.sstr "F") 0 none
    (by decide) rfl

/-- C3: the claim says iterating a string of length n yields exactly n
occurrences, from the first anchor through the last.  On the two-element
chain `heap2`/`str2` the iterator stops as soon as `res.right is self._last`
(line 963), so the last anchor itself is never yielded: the iteration
returns one occurrence, not two. -/
theorem iteration_misses_last_anchor :
    str2.len = 2 ∧
    (stringIterItems heap2 str2 (str2.len + 1)).length = 1 ∧
    stringIterItems heap2 str2 (str2.len + 1) = [⟨⟨'A', "A", []⟩, none, some 1⟩] := by
  decide

/-- C4: the claim says `Alphabet.add` raises `KeyError` on a glyph or name
collision.  The method performs no check and has no raise statement: adding
a symbol whose glyph is already used returns no error and silently keeps the
alphabet as it was, and adding a symbol whose name is already used returns
no error and silently grows the alphabet to two symbols. -/
theorem add_duplicate_raises_nothing :
    (aAlpha.addE symAbeta).1 = none ∧
    (aAlpha.addE symAbeta).2.1 = aAlpha ∧
    (aAlpha.addE symBalpha).1 = none ∧
    (aAlpha.addE symBalpha).2.1.symbols = [symAalpha, symBalpha] := by
  decide

/-- C5: the claim says inserting into an empty `String` at loc 0 or -1 is
valid.  The bounds condition of line 755 also applies the range test
`-len <= loc < len` to an empty string, where it is unsatisfiable, so every
location — 0 and -1 included — raises `IndexError` on an empty string. -/
theorem empty_insert_always_index_error :
    (∀ loc : Int, boundsBad 0 loc = true) ∧
    (insertS [] src0F (Item.sstr "F") 0 none).err = some PyErr.indexError ∧
    (insertS [] src0F (Item.sstr "F") (-1) none).err = some PyErr.indexError := by
  refine ⟨?_, by decide, by decide⟩
  intro loc
  simp only [boundsBad]
  simp only [Bool.or_eq_true, Bool.and_eq_true, Bool.not_eq_true', Bool.and_eq_false_iff,
    decide_eq_true_eq, decide_eq_false_iff_not, beq_iff_eq]
  omega

/-- C6 counterexample: the claim says `Alphabet.drop` raises a validation
error (`ValueError`) on the empty string, but `drop` sends any string of
length at most one through the glyph search loop, which finds nothing and
raises `KeyError` instead. -/
theorem drop_empty_string_key_error :
    aAlpha.dropE "" = .error PyErr.keyError ∧
    PyErr.keyError ≠ PyErr.valueError :=
  ⟨rfl, by decide⟩

/-- C6 amended: `Alphabet.get` and `Alphabet.__contains__` resolve a
one-character string by glyph, a longer string by name, and raise
`ValueError` on the empty string; `Alphabet.drop` resolves a string longer
than one character by name and any other string — the empty string included
— by glyph, so `drop` of the empty string raises `KeyError`, not
`ValueError`. -/
theorem lookup_dispatch_amended : ∀ (A : Alphabet) (s : String),
    (s.length = 1 →
      (((A.getE s).isOk = true) ↔ ∃ t ∈ A.symbols, t.glyph.toString = s) ∧
      ((A.containsStrE s = .ok true) ↔ ∃ t ∈ A.symbols, t.glyph.toString = s) ∧
      (((A.dropE s).isOk = true) ↔ ∃ t ∈ A.symbols, t.glyph.toString = s)) ∧
    (1 < s.length →
      (((A.getE s).isOk = true) ↔ ∃ t ∈ A.symbols, t.name = s) ∧
      ((A.containsStrE s = .ok true) ↔ ∃ t ∈ A.symbols, t.name = s) ∧
      (((A.dropE s).isOk = true) ↔ ∃ t ∈ A.symbols, t.name = s)) ∧
    (s = "" →
      A.getE s = .error PyErr.valueError ∧
      A.containsStrE s = .error PyErr.valueError ∧
      A.dropE s = .error PyErr.keyError) := by
  intro A s
  refine ⟨fun h1 => ⟨getE_glyph_iff A s h1, containsE_glyph_iff A s h1,
      dropE_glyph_iff A s (by omega)⟩,
    fun h2 => ⟨getE_name_iff A s h2, containsE_name_iff A s h2,
      dropE_name_iff A s h2⟩,
    fun he => ?_⟩
  subst he
  refine ⟨?_, ?_, ?_⟩
  · simp [Alphabet.getE]
  · simp [Alphabet.containsStrE]
  · simp [Alphabet.dropE, dropByGlyph_empty]

/-- C7 counterexample: the claim includes the set difference among the
operators satisfying associativity and idempotence.  On the one-symbol
alphabet `aAlpha` the difference is not idempotent — `aAlpha - aAlpha` has
lost the glyph `a` that `aAlpha` holds — and not associative: bracketing
`aAlpha - aEmpty - aAlpha` the two ways disagrees on the glyph `a`. -/
theorem sub_laws_fail :
    (aAlpha.subA aAlpha).memGlyph 'a' = false ∧
    aAlpha.memGlyph 'a' = true ∧
    ((aAlpha.subA aEmpty).subA aAlpha).memGlyph 'a' = false ∧
    (aAlpha.subA (aEmpty.subA aAlpha)).memGlyph 'a' = true := by
  decide

/-- C7 amended: the subset test agrees with per-symbol membership;
intersection and union are associative and idempotent up to membership;
the set difference is neither (subtracting an alphabet from itself empties
it); and an alphabet is disjoint from itself exactly when it is empty. -/
theorem set_algebra_amended :
    (∀ A B : Alphabet, A.leA B = true ↔ ∀ s ∈ A.symbols, B.containsSym s = true) ∧
    (∀ A B C : Alphabet, ((A.interA B).interA C).equiv (A.interA (B.interA C))) ∧
    (∀ A : Alphabet, (A.interA A).equiv A) ∧
    (∀ A B C : Alphabet, ((A.unionA B).unionA C).equiv (A.unionA (B.unionA C))) ∧
    (∀ A : Alphabet, (A.unionA A).equiv A) ∧
    (∀ A : Alphabet, (A.subA A).equiv aEmpty) ∧
    (∀ A : Alphabet, A.isdisjoint A = A.symbols.isEmpty) := by
  refine ⟨?_, ?_, ?_, ?_, ?_, ?_, isdisjoint_self_eq⟩
  · intro A B
    simp only [Alphabet.leA, List.all_eq_true]
  · intro A B C g
    rw [Bool.eq_iff_iff]
    simp only [mem_interA_iff]
    tauto
  · intro A g
    rw [Bool.eq_iff_iff]
    simp only [mem_interA_iff]
    tauto
  · intro A B C g
    rw [Bool.eq_iff_iff]
    simp only [mem_unionA_iff]
    tauto
  · intro A g
    rw [Bool.eq_iff_iff]
    simp only [mem_unionA_iff]
    tauto
  · intro A g
    rw [Bool.eq_iff_iff]
    simp only [mem_subA_iff]
    constructor
    · rintro ⟨h1, h2⟩
      rw [h1] at h2
      exact absurd h2 (by decide)
    · intro h2
      exact absurd h2 (by simp [aEmpty, Alphabet.memGlyph])

/-- C8: the claim says a finalised alphabet refuses `add` and `drop` with a
permission error.  Class `Alphabet` defines no `finalise` method and no
finalised flag: `add` raises nothing at all, and the only error `drop` can
raise is `KeyError`, so no call sequence ever produces a `PermissionError`. -/
theorem no_permission_error_exists : ∀ (A : Alphabet) (s : Symbol) (t : String),
    (A.addE s).1 = none ∧
    (A.dropE t = .error PyErr.keyError ∨ ∃ r, A.dropE t = .ok r) := by
  intro A s t
  refine ⟨rfl, ?_⟩
  cases hd : A.dropE t with
  | error e => exact Or.inl (by rw [dropE_err A t e hd])
  | ok r => exact Or.inr ⟨r, rfl⟩

/-- C9: constructing `String(src, alphabet, copy)` from any `String` the
program can produce yields an empty object: length 0, no first or last
node, owner set, copy-on-write clear, and the alphabet taken from the
constructor argument (every reachable source has length 0, so the trailing
assignments of lines 716-721 overwrite whatever the copy logic stored). -/
theorem init_from_string_always_empty (h : Heap) (src : StringS)
    (a : Option Alphabet) (c : Option Bool) (hr : Reachable src) :
    stringInit h (some src) a c = .ok ⟨none, none, 0, a, true, false⟩ := by
  simp only [stringInit, (reachable_shape hr).2.2.1, beq_self_eq_true, if_true]

/-- Witness for C9: the string produced by `String(alphabet=None)` fed back
into the constructor with a fresh alphabet and `copy=True`. -/
theorem init_from_string_always_empty_inst :
    stringInit [] (some src0) (some aF) (some true) =
      .ok ⟨none, none, 0, some aF, true, false⟩ :=
  init_from_string_always_empty [] src0 (some aF) (some true)
    (Reachable.ofInitNone none none src0 rfl)

/-- C10: `Symbol` declares no attribute named `params`, so the
`_SymbolNode` constructor — which reads `symbol.params` at line 508 before
assigning anything — raises `AttributeError` for every symbol and parameter
dictionary; consequently `String.insert` with a `str` item never completes
even when the bounds test passes. -/
theorem symbolnode_always_attribute_error :
    Symbol.hasAttr "params" = false ∧
    (∀ (s : Symbol) (p : Option (List (String × String))),
      symbolNodeInitErr s p = PyErr.attributeError) ∧
    (∀ (h : Heap) (S : StringS) (s : String) (loc : Int)
      (p : Option (List (String × String))), boundsBad S.len loc = false →
      (insertS h S (Item.sstr s) loc p).err.isSome = true) :=
  ⟨by decide, fun _ _ => rfl, fun h S s loc p _ => insertS_sstr_err h S s loc p⟩

end Lindenmayer
